import Mathlib

/-!
Shallow embedding, in Lean 4, of the line-classification, paragraph/line
formatting and metadata-extraction logic of `src/tool.py`
(class `EnhancedJudgmentExtractor`).  Strings are modelled as `List Char`
(wrapped in `String` at the interface); the Python regular expressions used
by the source are modelled by bespoke executable matchers that mirror the
backtracking semantics of the `re` module for exactly those patterns.
All inputs relevant to the claims are ASCII, and the character-class
helpers (`\w`, `\s`, upper/lower case) are modelled on their ASCII meaning.
-/

set_option maxRecDepth 40000

namespace LegalParser

/-! ### Character helpers (Python semantics, ASCII scope) -/

/-- Python `\s` / `str.strip` whitespace (ASCII part). -/
def pyWs (c : Char) : Bool :=
  c = ' ' || c = '\t' || c = '\n' || c = '\r' || c = '\x0b' || c = '\x0c'

/-- Character class `[A-Z]` without `re.IGNORECASE`. -/
def isUpperAZ (c : Char) : Bool := 'A' ≤ c && c ≤ 'Z'

/-- Character class `[a-z]` without `re.IGNORECASE`. -/
def isLowerAZ (c : Char) : Bool := 'a' ≤ c && c ≤ 'z'

/-- Character class `\d`. -/
def isDigitC (c : Char) : Bool := '0' ≤ c && c ≤ '9'

/-- An ASCII letter (either case); this is `[A-Z]` under `re.IGNORECASE`. -/
def isLetterC (c : Char) : Bool := isUpperAZ c || isLowerAZ c

/-- Python `\w` (ASCII part): letters, digits and underscore. -/
def isWordChar (c : Char) : Bool := isLetterC c || isDigitC c || c = '_'

/-- ASCII lower-casing of one character (Python `str.lower` on ASCII). -/
def lowC (c : Char) : Char := if isUpperAZ c then Char.ofNat (c.toNat + 32) else c

/-- ASCII upper-casing of one character (Python `str.upper` on ASCII). -/
def uppC (c : Char) : Char := if isLowerAZ c then Char.ofNat (c.toNat - 32) else c

/-- Case-insensitive character comparison (ASCII). -/
def eqCI (a b : Char) : Bool := lowC a = lowC b

/-! ### List-of-characters string primitives -/

/-- Python `str.strip` (both ends). -/
def pyStripL (l : List Char) : List Char :=
  ((l.dropWhile pyWs).reverse.dropWhile pyWs).reverse

def pyStrip (s : String) : String := String.mk (pyStripL s.data)

/-- Python `str.upper` (ASCII). -/
def upperL (l : List Char) : List Char := l.map uppC

/-- Python `str.lower` (ASCII). -/
def lowerL (l : List Char) : List Char := l.map lowC

/-- Does `l` start with `pat` (exact characters)? -/
def startsWithL (pat : List Char) : List Char → Bool
  | l => match pat, l with
    | [], _ => true
    | _ :: _, [] => false
    | p :: ps, c :: cs => p = c && startsWithL ps cs

/-- Does `l` start with `pat`, case-insensitively (ASCII)? -/
def startsWithCI (pat : List Char) : List Char → Bool
  | l => match pat, l with
    | [], _ => true
    | _ :: _, [] => false
    | p :: ps, c :: cs => eqCI p c && startsWithCI ps cs

/-- Python `pat in l` (substring containment, exact characters). -/
def containsL (pat : List Char) : List Char → Bool
  | [] => startsWithL pat []
  | l@(_ :: cs) => startsWithL pat l || containsL pat cs

/-- Python `str.isupper`: at least one cased character and no lower-case
cased character (ASCII: cased = letter). -/
def pyIsUpper (l : List Char) : Bool :=
  l.any isLetterC && l.all (fun c => !(isLowerAZ c))

/-! ### The per-line classifier of `preserve_enhanced_numbering`
(`src/tool.py` lines 560-612).

The Python loop wraps every non-blank line in exactly one
`<div class="...">...</div>`; the chain of `if`/`elif` tests and the
ordered `numbering_patterns` table determine the css class.  We model the
class chosen for a line as a `LineTag`, one constructor per css class that
the loop can emit, plus `empty` for blank lines (for which the loop emits
`''` and no div). -/

inductive LineTag where
  | empty
  | pageMarker
  | caseHeader
  | romanNumber
  | numberedParens
  | numberedDots
  | letteredPoints
  | subPoints
  | letteredCaps
  | numberedSimple
  | bulletPoint
  | dashPoint
  | legalHeading
  | allCapsHeading
  | paragraph
deriving DecidableEq, Repr

/-- The css class emitted for each tag (as in the Python source). -/
def cssClass : LineTag → String
  | .empty => ""
  | .pageMarker => "page-marker"
  | .caseHeader => "case-header"
  | .romanNumber => "roman-number"
  | .numberedParens => "numbered-parentheses"
  | .numberedDots => "numbered-dots"
  | .letteredPoints => "lettered-points"
  | .subPoints => "sub-points"
  | .letteredCaps => "lettered-caps"
  | .numberedSimple => "numbered-simple"
  | .bulletPoint => "bullet-point"
  | .dashPoint => "dash-point"
  | .legalHeading => "legal-heading"
  | .allCapsHeading => "all-caps-heading"
  | .paragraph => "paragraph"

/-- Anchored match of `^\s*[IVX]+[.)]\s+` (`re.match`, no IGNORECASE). -/
def matchRomanDot (l : List Char) : Bool :=
  let l := l.dropWhile pyWs
  let run := l.takeWhile (fun c => c = 'I' || c = 'V' || c = 'X')
  let rest := l.dropWhile (fun c => c = 'I' || c = 'V' || c = 'X')
  run ≠ [] &&
    match rest with
    | c :: d :: _ => (c = '.' || c = ')') && pyWs d
    | _ => false

/-- Anchored match of `^\s*\(\d+\)\s+`. -/
def matchParenNum (l : List Char) : Bool :=
  match l.dropWhile pyWs with
  | '(' :: l1 =>
    let run := l1.takeWhile isDigitC
    let rest := l1.dropWhile isDigitC
    run ≠ [] &&
      match rest with
      | ')' :: d :: _ => pyWs d
      | _ => false
  | _ => false

/-- Anchored match of `^\s*\d+\.\s+`. -/
def matchNumDot (l : List Char) : Bool :=
  let l := l.dropWhile pyWs
  let run := l.takeWhile isDigitC
  let rest := l.dropWhile isDigitC
  run ≠ [] &&
    match rest with
    | '.' :: d :: _ => pyWs d
    | _ => false

/-- Anchored match of `^\s*\([a-z]\)\s+` (single lower-case letter). -/
def matchParenLetter (l : List Char) : Bool :=
  match l.dropWhile pyWs with
  | '(' :: c :: ')' :: d :: _ => isLowerAZ c && pyWs d
  | _ => false

/-- Anchored match of `^\s*\([ivxlc]+\)\s+` (lower-case roman letters). -/
def matchParenRomanLower (l : List Char) : Bool :=
  match l.dropWhile pyWs with
  | '(' :: l1 =>
    let isR : Char → Bool := fun c =>
      c = 'i' || c = 'v' || c = 'x' || c = 'l' || c = 'c'
    let run := l1.takeWhile isR
    let rest := l1.dropWhile isR
    run ≠ [] &&
      match rest with
      | ')' :: d :: _ => pyWs d
      | _ => false
  | _ => false

/-- Anchored match of `^\s*[A-Z]\.\s+`. -/
def matchCapDot (l : List Char) : Bool :=
  match l.dropWhile pyWs with
  | c :: '.' :: d :: _ => isUpperAZ c && pyWs d
  | _ => false

/-- Anchored match of `^\s*\d+\)\s+`. -/
def matchNumParen (l : List Char) : Bool :=
  let l := l.dropWhile pyWs
  let run := l.takeWhile isDigitC
  let rest := l.dropWhile isDigitC
  run ≠ [] &&
    match rest with
    | ')' :: d :: _ => pyWs d
    | _ => false

/-- Anchored match of `^\s*•\s+`. -/
def matchBullet (l : List Char) : Bool :=
  match l.dropWhile pyWs with
  | '•' :: d :: _ => pyWs d
  | _ => false

/-- Anchored match of `^\s*-\s+`. -/
def matchDash (l : List Char) : Bool :=
  match l.dropWhile pyWs with
  | '-' :: d :: _ => pyWs d
  | _ => false

/-- The `--- PAGE` test (`line.startswith('--- PAGE')`). -/
def isPageLine (l : List Char) : Bool := startsWithL ("--- PAGE".data) l

/-- The case-header test: `any(p in line.upper() for p in ['VS','V/S','VERSUS'])
and len(line) < 200`. -/
def isVsLine (l : List Char) : Bool :=
  (containsL ("VS".data) (upperL l) || containsL ("V/S".data) (upperL l)
    || containsL ("VERSUS".data) (upperL l)) && l.length < 200

/-- The legal-heading test: one of the phrases occurs in `line.upper()`. -/
def isLegalPhraseLine (l : List Char) : Bool :=
  let u := upperL l
  containsL ("PRESENT:".data) u || containsL ("CORAM:".data) u
    || containsL ("HEARD:".data) u || containsL ("JUDGMENT:".data) u
    || containsL ("ORDER:".data) u

/-- The all-caps-heading test: `line.isupper() and len(line) > 10`. -/
def isAllCapsLine (l : List Char) : Bool := pyIsUpper l && l.length > 10

/-- Classification of one already-stripped, non-blank line, following the
exact branch order of the loop body of `preserve_enhanced_numbering`
(page marker, case header, the nine `numbering_patterns` in table order,
legal phrases, all-caps heading, default paragraph). -/
def classifyStripped (l : List Char) : LineTag :=
  if isPageLine l then .pageMarker
  else if isVsLine l then .caseHeader
  else if matchRomanDot l then .romanNumber
  else if matchParenNum l then .numberedParens
  else if matchNumDot l then .numberedDots
  else if matchParenLetter l then .letteredPoints
  else if matchParenRomanLower l then .subPoints
  else if matchCapDot l then .letteredCaps
  else if matchNumParen l then .numberedSimple
  else if matchBullet l then .bulletPoint
  else if matchDash l then .dashPoint
  else if isLegalPhraseLine l then .legalHeading
  else if isAllCapsLine l then .allCapsHeading
  else .paragraph

/-- Classification of a raw line: the loop first strips the line and treats
a blank result as `empty` (it appends `''`). -/
def classify (raw : String) : LineTag :=
  if pyStripL raw.data = [] then .empty
  else classifyStripped (pyStripL raw.data)

/-- The html emitted for one raw line by the loop body. -/
def formatLine (raw : String) : String :=
  if pyStripL raw.data = [] then ""
  else
    "<div class=\"" ++ cssClass (classifyStripped (pyStripL raw.data)) ++ "\">"
      ++ String.mk (pyStripL raw.data) ++ "</div>"

/-- Python `text.split('\n')` (splitting an empty text gives one empty
line, as in Python). -/
def splitNl : List Char → List (List Char)
  | [] => [[]]
  | c :: rest =>
    if c = '\n' then [] :: splitNl rest
    else
      match splitNl rest with
      | h :: t => (c :: h) :: t
      | [] => [[c]]

/-- Python `'\n'.join(...)`. -/
def joinNl : List (List Char) → List Char
  | [] => []
  | [x] => x
  | x :: xs => x ++ '\n' :: joinNl xs

/-- `preserve_enhanced_numbering` (string level): split on newlines, format
each line, join with newlines. -/
def preserve_enhanced_numbering (text : String) : String :=
  String.mk (joinNl (((splitNl text.data).map String.mk).map
    (fun raw => (formatLine raw).data)))

/-! ### Block view of `preserve_enhanced_numbering`

Every non-blank input line produces exactly one output `<div>`; blank lines
produce no div (the loop appends `''`).  A `Block` records the div's tag
(css class), its content (the stripped line placed inside the div) and the
raw source line it came from, so that the reconstruction claims about
"blocks" and their "source lines" can be stated. -/

structure Block where
  tag : LineTag
  content : String
  source : String
deriving DecidableEq, Repr

/-- The block a raw line produces: none for a blank line, otherwise a
single block carrying the emitted tag, the stripped content placed in the
div, and the raw source line. -/
def lineBlock? (raw : String) : Option Block :=
  if pyStripL raw.data = [] then none
  else some ⟨classifyStripped (pyStripL raw.data),
    String.mk (pyStripL raw.data), raw⟩

/-- The sequence of output blocks of `preserve_enhanced_numbering` for a
sequence of raw lines: one block per non-blank line, in order. -/
def lineBlocks (rawLines : List String) : List Block :=
  rawLines.filterMap lineBlock?

/-- Block view of the full function (text split on newlines). -/
def blocksOfText (text : String) : List Block :=
  lineBlocks ((splitNl text.data).map String.mk)

/-! ### `_clean_text` (`src/tool.py` lines 292-303)

Steps, in source order: collapse every `\s+` run to a single space; the
two OCR replacements (`'Â­' -> '-'`, `'Â' -> ''`; the Python source holds
the two-character sequence U+00C2 U+00AD and the single U+00C2); the two
quote "normalisations", which in the source replace a plain double quote
by a plain double quote (no-ops); and `re.sub(r'(\w)([A-Z])', r'\1 \2')`,
which scans left to right and inserts a space inside each non-overlapping
word-character/upper-case pair. -/

/-- Model of `re.sub(r'\s+', ' ', text)`: the flag records whether we are
inside a whitespace run whose single replacement space was already
emitted. -/
def wsCollapseAux : Bool → List Char → List Char
  | _, [] => []
  | inRun, c :: rest =>
    if pyWs c then
      if inRun then wsCollapseAux true rest
      else ' ' :: wsCollapseAux true rest
    else c :: wsCollapseAux false rest

def wsCollapse (l : List Char) : List Char := wsCollapseAux false l

/-- Model of Python `str.replace` for a non-empty pattern (all
non-overlapping occurrences, left to right).  The fuel argument only
bounds the recursion; every step consumes at least one character, so
`pyReplace` below never runs out. -/
def pyReplaceAux (pat rep : List Char) : Nat → List Char → List Char
  | 0, l => l
  | _ + 1, [] => []
  | f + 1, c :: rest =>
    if pat ≠ [] && startsWithL pat (c :: rest) then
      rep ++ pyReplaceAux pat rep f ((c :: rest).drop pat.length)
    else c :: pyReplaceAux pat rep f rest

def pyReplace (pat rep : List Char) (l : List Char) : List Char :=
  pyReplaceAux pat rep l.length l

/-- Model of `re.sub(r'(\w)([A-Z])', r'\1 \2', text)`: left-to-right scan,
non-overlapping; on a match the scan resumes after the pair. -/
def capsSub : List Char → List Char
  | [] => []
  | [c] => [c]
  | c1 :: c2 :: rest =>
    if isWordChar c1 && isUpperAZ c2 then c1 :: ' ' :: c2 :: capsSub rest
    else c1 :: capsSub (c2 :: rest)

/-- `_clean_text`, composed in source order. -/
def _clean_text (s : String) : String :=
  let l := wsCollapse s.data
  let l := pyReplace ['\xC2', '\xAD'] ['-'] l
  let l := pyReplace ['\xC2'] [] l
  let l := pyReplace ['"'] ['"'] l
  let l := pyReplace ['"'] ['"'] l
  String.mk (capsSub l)

/-! ### Backtracking matcher combinators

These mirror, for the concrete patterns of the source, the behaviour of
Python `re`: greedy quantifiers try the longest count first and back off,
lazy quantifiers try the shortest first and grow, alternatives are tried
in written order, and a match at an earlier starting position wins. -/

/-- Try counts `hi, hi-1, ..., lo` (greedy quantifier). -/
def tryDesc (lo : Nat) (k : Nat → Option α) : Nat → Option α
  | 0 => if 0 < lo then none else k 0
  | hi + 1 =>
    if hi + 1 < lo then none
    else
      match k (hi + 1) with
      | some r => some r
      | none => tryDesc lo k hi

/-- Try counts `lo, lo+1, ...` while `fuel` lasts (lazy quantifier). -/
def tryAscAux (k : Nat → Option α) (lo : Nat) : Nat → Option α
  | 0 => k lo
  | f + 1 =>
    match k lo with
    | some r => some r
    | none => tryAscAux k (lo + 1) f

/-- Try counts `lo, lo+1, ..., hi` (lazy quantifier). -/
def tryAsc (lo hi : Nat) (k : Nat → Option α) : Option α :=
  if hi < lo then none else tryAscAux k lo (hi - lo)

/-- Greedy run of a character class with at least `minLen` characters;
the continuation receives the rest of the input. -/
def greedyRun (p : Char → Bool) (minLen : Nat) (l : List Char)
    (k : List Char → Option α) : Option α :=
  tryDesc minLen (fun n => k (l.drop n)) (l.takeWhile p).length

/-- Lazy run of a character class with at least `minLen` characters; the
continuation receives the number of characters consumed. -/
def lazyRun (p : Char → Bool) (minLen : Nat) (l : List Char)
    (k : Nat → Option α) : Option α :=
  tryAsc minLen (l.takeWhile p).length k

/-- Lazy `.`-run under `re.DOTALL` (any character); the continuation
receives the number of characters consumed. -/
def lazyAny (minLen : Nat) (l : List Char) (k : Nat → Option α) : Option α :=
  tryAsc minLen l.length k

/-- First alternative (case-insensitive literal) whose continuation
succeeds, in list order. -/
def altTokens (toks : List (List Char)) (l : List Char)
    (k : List Char → Option α) : Option α :=
  match toks with
  | [] => none
  | t :: ts =>
    (if startsWithCI t l then k (l.drop t.length) else none)
      <|> altTokens ts l k

/-- Case-insensitive literal. -/
def eatCI (pat : List Char) (l : List Char) (k : List Char → Option α) :
    Option α :=
  if startsWithCI pat l then k (l.drop pat.length) else none

/-! ### `findall` and `search` drivers -/

/-- `re.findall` for a pattern whose matches always consume at least one
character: scan left to right, on a match record the consumed characters
and resume at the match end, otherwise advance one position. -/
def findallAux (matchAt : List Char → Option (List Char)) :
    Nat → List Char → List (List Char) → List (List Char)
  | 0, _, acc => acc.reverse
  | _ + 1, [], acc => acc.reverse
  | f + 1, l@(_ :: tl), acc =>
    match matchAt l with
    | some rest =>
      if rest.length < l.length then
        findallAux matchAt f rest ((l.take (l.length - rest.length)) :: acc)
      else findallAux matchAt f tl acc
    | none => findallAux matchAt f tl acc

def findallL (matchAt : List Char → Option (List Char)) (l : List Char) :
    List (List Char) :=
  findallAux matchAt (l.length + 1) l []

/-- `re.search`: result of the matcher at the leftmost position where it
succeeds. -/
def searchL (matchAt : List Char → Option α) : List Char → Option α
  | [] => matchAt []
  | l@(_ :: tl) =>
    match matchAt l with
    | some r => some r
    | none => searchL matchAt tl

/-- Leftmost index at which the matcher succeeds. -/
def searchIdx (matchAt : List Char → Option α) : List Char → Option Nat
  | [] => (matchAt []).map (fun _ => 0)
  | l@(_ :: tl) =>
    match matchAt l with
    | some _ => some 0
    | none => (searchIdx matchAt tl).map (· + 1)

/-- Variant of `findall` for patterns with a leading `\b`: the matcher also
receives whether the previous character is a word character.  After a
match the scan resumes at the match end. -/
def findallBAux (matchAt : Bool → List Char → Option (List Char)) :
    Nat → Bool → List Char → List (List Char) → List (List Char)
  | 0, _, _, acc => acc.reverse
  | _ + 1, _, [], acc => acc.reverse
  | f + 1, prevW, l@(c :: tl), acc =>
    match matchAt prevW l with
    | some rest =>
      if rest.length < l.length then
        let m := l.take (l.length - rest.length)
        findallBAux matchAt f (match m.getLast? with
          | some d => isWordChar d
          | none => prevW) rest (m :: acc)
      else findallBAux matchAt f (isWordChar c) tl acc
    | none => findallBAux matchAt f (isWordChar c) tl acc

def findallB (matchAt : Bool → List Char → Option (List Char))
    (l : List Char) : List (List Char) :=
  findallBAux matchAt (l.length + 1) false l []

/-! ### Case-number patterns (`self.patterns['case_number']`, lines 61-66)

All four patterns are matched with `re.IGNORECASE | re.MULTILINE` and have
no capturing groups, so `findall` yields full-match strings. -/

/-- The alternation of jurisdiction tokens opening pattern 1, in source
order (the source lists `CRP` twice). -/
def caseTokens : List (List Char) :=
  ["OMP", "CRL", "CS", "CC", "SA", "FAO", "CRP", "MAC", "RFA", "CRP",
   "MANU", "AIR", "WP", "CP", "OP", "FP", "LP", "MP", "BAIL", "REV",
   "APP", "SLP", "CA", "CIVIL", "CRIMINAL"].map String.data

/-- Tail `\d+(?:/\d{2,4})?` of the case-number patterns. -/
def caseDigitsTail (l : List Char) : Option (List Char) :=
  greedyRun isDigitC 1 l (fun l6 =>
    (match l6 with
     | '/' :: l7 =>
       tryDesc 2 (fun n =>
         if n ≤ (l7.takeWhile isDigitC).length then some (l7.drop n)
         else none) 4
     | _ => none)
    <|> some l6)

/-- Tail `(?:No\.?|/)?\s*\d+(?:/\d{2,4})?`. -/
def caseSepTail (l : List Char) : Option (List Char) :=
  let after : List Char → Option (List Char) := fun l5 =>
    greedyRun pyWs 0 l5 caseDigitsTail
  (if startsWithCI ("No".data) l then
     let l4 := l.drop 2
     (match l4 with
      | '.' :: l4b => after l4b
      | _ => none)
     <|> after l4
   else none)
  <|> (match l with
       | '/' :: l4 => after l4
       | _ => none)
  <|> after l

/-- Tail `(?:\([IVX]*\))?\s*` followed by `caseSepTail` (under IGNORECASE
the class `[IVX]` also matches the lower-case letters). -/
def caseParenTail (l : List Char) : Option (List Char) :=
  let after : List Char → Option (List Char) := fun l3 =>
    greedyRun pyWs 0 l3 caseSepTail
  (match l with
   | '(' :: l2 =>
     greedyRun (fun c => c = 'I' || c = 'V' || c = 'X'
       || c = 'i' || c = 'v' || c = 'x') 0 l2 (fun l3 =>
         match l3 with
         | ')' :: l4 => after l4
         | _ => none)
   | _ => none)
  <|> after l

/-- Anchored match of case-number pattern 1 at the current position. -/
def matchCase1At (l : List Char) : Option (List Char) :=
  altTokens caseTokens l (fun l1 => greedyRun pyWs 0 l1 caseParenTail)

/-- Tail `No[.:]?\s*\d+(?:/\d{2,4})?` shared by patterns 2-4. -/
def caseNoTail (l : List Char) : Option (List Char) :=
  if startsWithCI ("No".data) l then
    let l2 := l.drop 2
    (match l2 with
     | c :: l3 =>
       if c = '.' || c = ':' then greedyRun pyWs 0 l3 caseDigitsTail
       else none
     | [] => none)
    <|> greedyRun pyWs 0 l2 caseDigitsTail
  else none

/-- Anchored match of `Case\s+No[.:]?\s*\d+(?:/\d{2,4})?`. -/
def matchCase2At (l : List Char) : Option (List Char) :=
  eatCI ("Case".data) l (fun l1 => greedyRun pyWs 1 l1 caseNoTail)

/-- Anchored match of `Pet(?:ition)?\s+No[.:]?\s*\d+(?:/\d{2,4})?`. -/
def matchCase3At (l : List Char) : Option (List Char) :=
  eatCI ("Pet".data) l (fun l0 =>
    (eatCI ("ition".data) l0 (fun lb => greedyRun pyWs 1 lb caseNoTail))
    <|> greedyRun pyWs 1 l0 caseNoTail)

/-- Anchored match of `Application\s+No[.:]?\s*\d+(?:/\d{2,4})?`. -/
def matchCase4At (l : List Char) : Option (List Char) :=
  eatCI ("Application".data) l (fun l1 => greedyRun pyWs 1 l1 caseNoTail)

/-- `findall` of the four case-number patterns, concatenated in pattern
order (as `_extract_with_confidence` collects them). -/
def caseNumberMatches (text : List Char) : List (List Char) :=
  findallL matchCase1At text ++ findallL matchCase2At text
    ++ findallL matchCase3At text ++ findallL matchCase4At text

/-! ### Date patterns (`self.patterns['date']`, lines 67-71), IGNORECASE -/

/-- Month names, longest first, as CPython `strptime`/our alternation
tries them (for the regex alternation the written order of the source is
January..December; names are prefix-free so the order is immaterial). -/
def monthNames : List (List Char) :=
  ["January", "February", "March", "April", "May", "June", "July",
   "August", "September", "October", "November", "December"].map String.data

/-- Month number for a (case-insensitive) full month name. -/
def monthNumber (m : List Char) : Nat :=
  match (monthNames.enum.find? (fun p => lowerL p.2 = lowerL m)) with
  | some p => p.1 + 1
  | none => 0

/-- Is the head of `l` a word character (for a trailing `\b`)? -/
def bAfter (l : List Char) : Bool :=
  match l with
  | [] => false
  | c :: _ => isWordChar c

/-- `\d{a,b}` greedy with continuation. -/
def digitsBetween (lo hi : Nat) (l : List Char) (k : List Char → Option α) :
    Option α :=
  tryDesc lo (fun n =>
    if n ≤ (l.takeWhile isDigitC).length then k (l.drop n) else none) hi

/-- Anchored match (given a leading `\b`) of
`\b\d{1,2}[./\-]\d{1,2}[./\-]\d{2,4}\b`. -/
def matchDate1At (prevW : Bool) (l : List Char) : Option (List Char) :=
  if prevW then none
  else
    digitsBetween 1 2 l (fun l1 =>
      match l1 with
      | c :: l2 =>
        if c = '.' || c = '/' || c = '-' then
          digitsBetween 1 2 l2 (fun l3 =>
            match l3 with
            | d :: l4 =>
              if d = '.' || d = '/' || d = '-' then
                digitsBetween 2 4 l4 (fun l5 =>
                  if bAfter l5 then none else some l5)
              else none
            | [] => none)
        else none
      | [] => none)

/-- Optional ordinal suffix `(?:st|nd|rd|th)?` (case-insensitive). -/
def ordSuffix (l : List Char) (k : List Char → Option α) : Option α :=
  (altTokens (["st", "nd", "rd", "th"].map String.data) l k) <|> k l

/-- Tail `\s*,?\s*\d{2,4}\b` of the month-name date patterns. -/
def yearTail (l : List Char) : Option (List Char) :=
  greedyRun pyWs 0 l (fun l1 =>
    let rest : List Char → Option (List Char) := fun l2 =>
      greedyRun pyWs 0 l2 (fun l3 =>
        digitsBetween 2 4 l3 (fun l4 => if bAfter l4 then none else some l4))
    (match l1 with
     | ',' :: l2 => rest l2
     | _ => none)
    <|> rest l1)

/-- Anchored match (given a leading `\b`) of pattern 2:
`\b\d{1,2}(?:st|nd|rd|th)?\s+(?:month names)\s*,?\s*\d{2,4}\b`. -/
def matchDate2At (prevW : Bool) (l : List Char) : Option (List Char) :=
  if prevW then none
  else
    digitsBetween 1 2 l (fun l1 =>
      ordSuffix l1 (fun l2 =>
        greedyRun pyWs 1 l2 (fun l3 =>
          altTokens monthNames l3 yearTail)))

/-- Anchored match (given a leading `\b`) of pattern 3:
`\b(?:month names)\s+\d{1,2}(?:st|nd|rd|th)?\s*,?\s*\d{2,4}\b`. -/
def matchDate3At (prevW : Bool) (l : List Char) : Option (List Char) :=
  if prevW then none
  else
    altTokens monthNames l (fun l1 =>
      greedyRun pyWs 1 l1 (fun l2 =>
        digitsBetween 1 2 l2 (fun l3 =>
          ordSuffix l3 yearTail)))

/-- All date-pattern matches, in pattern order (`_extract_dates_multiple`
runs `findall` per pattern and appends). -/
def dateMatches (text : List Char) : List (List Char) :=
  findallB matchDate1At text ++ findallB matchDate2At text
    ++ findallB matchDate3At text

/-! ### `_parse_date` (`src/tool.py` lines 416-430)

`datetime.strptime` is tried on ten formats in order; a format matches
only the whole string.  CPython's `_strptime` matches `%d` and `%m` as one
or two digits within range, `%y` as exactly two digits (mapped to
1969-2068), `%Y` as exactly four digits, `%B`/`%b` as month names
(case-insensitive), literal whitespace as `\s+`, and then validates the
day against the month length.  The last two formats contain a literal
comma, but `_parse_date` strips commas from its input first, so they can
never match. -/

structure PyDate where
  y : Nat
  m : Nat
  d : Nat
deriving DecidableEq, Repr

/-- Lexicographic order on dates (as `datetime` comparison). -/
def dateLE (a b : PyDate) : Bool :=
  a.y < b.y || (a.y = b.y && (a.m < b.m || (a.m = b.m && a.d ≤ b.d)))

def isLeap (y : Nat) : Bool := y % 4 = 0 && (y % 100 ≠ 0 || y % 400 = 0)

def daysInMonth (y m : Nat) : Nat :=
  if m = 2 then (if isLeap y then 29 else 28)
  else if m = 4 || m = 6 || m = 9 || m = 11 then 30
  else 31

/-- `%d` (strptime): two digits forming 01-31, else one digit 1-9. -/
def takeDay (l : List Char) : Option (Nat × List Char) :=
  match l with
  | a :: b :: rest =>
    if isDigitC a && isDigitC b then
      let v := (a.toNat - 48) * 10 + (b.toNat - 48)
      if 1 ≤ v && v ≤ 31 then some (v, rest)
      else if 1 ≤ a.toNat - 48 then some (a.toNat - 48, b :: rest) else none
    else if isDigitC a && 1 ≤ a.toNat - 48 then some (a.toNat - 48, b :: rest)
    else none
  | [a] => if isDigitC a && 1 ≤ a.toNat - 48 then some (a.toNat - 48, []) else none
  | [] => none

/-- `%m` (strptime): two digits forming 01-12, else one digit 1-9. -/
def takeMonth (l : List Char) : Option (Nat × List Char) :=
  match l with
  | a :: b :: rest =>
    if isDigitC a && isDigitC b then
      let v := (a.toNat - 48) * 10 + (b.toNat - 48)
      if 1 ≤ v && v ≤ 12 then some (v, rest)
      else if 1 ≤ a.toNat - 48 then some (a.toNat - 48, b :: rest) else none
    else if isDigitC a && 1 ≤ a.toNat - 48 then some (a.toNat - 48, b :: rest)
    else none
  | [a] => if isDigitC a && 1 ≤ a.toNat - 48 then some (a.toNat - 48, []) else none
  | [] => none

/-- Exactly `n` digits, returning their value. -/
def takeDigitsExact (n : Nat) (l : List Char) : Option (Nat × List Char) :=
  let run := l.take n
  if run.length = n && run.all isDigitC then
    some (run.foldl (fun a c => a * 10 + (c.toNat - 48)) 0, l.drop n)
  else none

/-- `%Y`: exactly four digits. -/
def takeYear4 (l : List Char) : Option (Nat × List Char) := takeDigitsExact 4 l

/-- `%y`: exactly two digits, 00-68 mapped to 2000-2068, 69-99 to 1969-1999. -/
def takeYear2 (l : List Char) : Option (Nat × List Char) :=
  (takeDigitsExact 2 l).map (fun p =>
    (if p.1 ≤ 68 then 2000 + p.1 else 1900 + p.1, p.2))

/-- `%B`: a full month name, case-insensitively. -/
def takeMonthName (l : List Char) : Option (Nat × List Char) :=
  altTokens monthNames l (fun rest =>
    some (monthNumber (l.take (l.length - rest.length)), rest))

/-- `%b`: an abbreviated month name, case-insensitively. -/
def takeMonthAbbr (l : List Char) : Option (Nat × List Char) :=
  altTokens (["Jan", "Feb", "Mar", "Apr", "May", "Jun", "Jul", "Aug",
    "Sep", "Oct", "Nov", "Dec"].map String.data) l (fun rest =>
    (["jan", "feb", "mar", "apr", "may", "jun", "jul", "aug", "sep",
      "oct", "nov", "dec"].map String.data).enum.find?
        (fun p => startsWithCI p.2 (l.take (l.length - rest.length)))
      |>.map (fun p => (p.1 + 1, rest)))

/-- `datetime(y, m, d)` validation: the parse succeeds only for a real
calendar date with year at least 1. -/
def mkDate (y m d : Nat) : Option PyDate :=
  if 1 ≤ y && 1 ≤ m && m ≤ 12 && 1 ≤ d && d ≤ daysInMonth y m then
    some ⟨y, m, d⟩
  else none

/-- One numeric format `%d<sep>%m<sep>(%Y|%y)`, whole-string. -/
def parseNumericDate (sep : Char) (year4 : Bool) (l : List Char) :
    Option PyDate := do
  let (d, l1) ← takeDay l
  match l1 with
  | c :: l2 =>
    if c = sep then do
      let (m, l3) ← takeMonth l2
      match l3 with
      | c2 :: l4 =>
        if c2 = sep then do
          let (y, l5) ← (if year4 then takeYear4 l4 else takeYear2 l4)
          if l5 = [] then mkDate y m d else none
        else none
      | [] => none
    else none
  | [] => none

/-- `\s+` for a literal space in a strptime format. -/
def wsPlusDate (l : List Char) : Option (List Char) :=
  let run := (l.takeWhile pyWs).length
  if run = 0 then none else some (l.drop run)

/-- `%d %B %Y` or `%d %b %Y`, whole-string. -/
def parseDayNameYear (useAbbr : Bool) (l : List Char) : Option PyDate := do
  let (d, l1) ← takeDay l
  let l2 ← wsPlusDate l1
  let (m, l3) ← (if useAbbr then takeMonthAbbr l2 else takeMonthName l2)
  let l4 ← wsPlusDate l3
  let (y, l5) ← takeYear4 l4
  if l5 = [] then mkDate y m d else none

/-- `%B %d, %Y` or `%b %d, %Y`, whole-string (the format requires a
literal comma). -/
def parseNameDayYear (useAbbr : Bool) (l : List Char) : Option PyDate := do
  let (m, l1) ← (if useAbbr then takeMonthAbbr l else takeMonthName l)
  let l2 ← wsPlusDate l1
  let (d, l3) ← takeDay l2
  match l3 with
  | ',' :: l4 => do
    let l5 ← wsPlusDate l4
    let (y, l6) ← takeYear4 l5
    if l6 = [] then mkDate y m d else none
  | _ => none

/-- `_parse_date`: strip commas, then try the ten formats in order. -/
def _parse_date (s : List Char) : Option PyDate :=
  let l := s.filter (fun c => c ≠ ',')
  (parseNumericDate '.' true l) <|> (parseNumericDate '/' true l)
    <|> (parseNumericDate '-' true l)
    <|> (parseNumericDate '.' false l) <|> (parseNumericDate '/' false l)
    <|> (parseNumericDate '-' false l)
    <|> (parseDayNameYear false l) <|> (parseDayNameYear true l)
    <|> (parseNameDayYear false l) <|> (parseNameDayYear true l)

/-- Stable insertion (after existing entries with key not larger), giving
Python's stable ascending sort when folded left over the input. -/
def insSorted (x : List Char × PyDate) :
    List (List Char × PyDate) → List (List Char × PyDate)
  | [] => [x]
  | y :: ys => if dateLE y.2 x.2 then y :: insSorted x ys else x :: y :: ys

def sortByDate (l : List (List Char × PyDate)) : List (List Char × PyDate) :=
  l.foldl (fun acc x => insSorted x acc) []

/-- `_extract_dates_multiple` (lines 377-414): collect all pattern
matches, parse, sort ascending by parsed date; the latest is the judgment
date, the earliest the filing date (when at least two parse). -/
def _extract_dates_multiple (text : List Char) :
    Option (String × String) :=
  let found := dateMatches text
  if found = [] then none
  else
    let parsed := found.filterMap (fun s => (_parse_date s).map (fun d => (s, d)))
    if parsed = [] then none
    else
      let sorted := sortByDate parsed
      let judgment := match sorted.getLast? with
        | some p => String.mk p.1
        | none => ""
      let filing := if parsed.length > 1 then
          match sorted.head? with
          | some p => String.mk p.1
          | none => ""
        else ""
      some (judgment, filing)

/-! ### Parties patterns (`self.patterns['parties_vs']`, lines 72-76)

All three are tried with `re.search` under
`re.IGNORECASE | re.MULTILINE | re.DOTALL` and have two capturing groups
(`_extract_parties_enhanced`, lines 347-375). -/

/-- The separator `(?:VS?\.?|V/S|VERSUS)` with its alternatives and
optional parts tried in Python's backtracking order. -/
def vsSep (l : List Char) (k : List Char → Option α) : Option α :=
  (match l with
   | c :: l1 =>
     if eqCI c 'v' then
       let afterS : List Char → Option α := fun l2 =>
         (match l2 with
          | '.' :: l3 => k l3
          | _ => none)
         <|> k l2
       (match l1 with
        | c2 :: l2 => if eqCI c2 's' then afterS l2 else none
        | [] => none)
       <|> afterS l1
     else none
   | [] => none)
  <|> eatCI ("V/S".data) l k
  <|> eatCI ("VERSUS".data) l k

/-- Terminator `(?:\n|$|Date:|Present:|Coram:)` of parties pattern 1
(under MULTILINE, `$` adds no position that the `\n` branch does not
already accept). -/
def p1Term (r : List Char) : Bool :=
  r = [] || startsWithL ['\n'] r || startsWithCI ("Date:".data) r
    || startsWithCI ("Present:".data) r || startsWithCI ("Coram:".data) r

/-- Lookahead `(?=\s+\d{1,2}[./]\d{1,2}[./]\d{2,4})` of parties pattern 2. -/
def p2Term (r : List Char) : Bool :=
  (greedyRun pyWs 1 r (fun r1 =>
    digitsBetween 1 2 r1 (fun r2 =>
      match r2 with
      | c :: r3 =>
        if c = '.' || c = '/' then
          digitsBetween 1 2 r3 (fun r4 =>
            match r4 with
            | d :: r5 =>
              if d = '.' || d = '/' then
                digitsBetween 2 4 r5 (fun r6 => some r6)
              else none
            | [] => none)
        else none
      | [] => none))).isSome

/-- Terminator `(?:Respondent|$)` of parties pattern 3. -/
def p3TermB (r : List Char) : Bool :=
  startsWithCI ("Respondent".data) r || r = [] || startsWithL ['\n'] r

/-- Lazy capture of at least one character (DOTALL `.`), stopping at the
earliest point where `term` holds on the remaining input. -/
def lazyCapture (term : List Char → Bool) :
    List Char → List Char → Option (List Char)
  | _, [] => none
  | acc, c :: tl =>
    if term tl then some (c :: acc).reverse else lazyCapture term (c :: acc) tl

/-- After group 1: `\s+ SEP \s+ (.+?) TERM`, returning group 2. -/
def partiesRestT (term : List Char → Bool) (r : List Char) :
    Option (List Char) :=
  greedyRun pyWs 1 r (fun r1 =>
    vsSep r1 (fun r2 =>
      greedyRun pyWs 1 r2 (fun r3 => lazyCapture term [] r3)))

/-- Lazy group 1 (`(.+?)`, at least one character, seeded by the caller):
grow until the rest of the pattern matches. -/
def lazyG1 (restF : List Char → Option β) :
    List Char → List Char → Option (List Char × β)
  | g1rev, r =>
    match restF r with
    | some b => some (g1rev.reverse, b)
    | none =>
      match r with
      | [] => none
      | c :: tl => lazyG1 restF (c :: g1rev) tl

/-- Anchored match of parties pattern 1 (captures). -/
def partiesP1At (l : List Char) : Option (List Char × List Char) :=
  match l with
  | [] => none
  | c :: tl => lazyG1 (partiesRestT p1Term) [c] tl

/-- Anchored match of parties pattern 2 (captures; group 2 ends at the
lookahead). -/
def partiesP2At (l : List Char) : Option (List Char × List Char) :=
  match l with
  | [] => none
  | c :: tl => lazyG1 (partiesRestT p2Term) [c] tl

/-- Anchored match of parties pattern 3
`Petitioner[:\s]*(.+?)\s+SEP\s+(.+?)(?:Respondent|$)`. -/
def partiesP3At (l : List Char) : Option (List Char × List Char) :=
  eatCI ("Petitioner".data) l (fun l1 =>
    greedyRun (fun c => c = ':' || pyWs c) 0 l1 (fun l2 =>
      match l2 with
      | [] => none
      | c :: tl => lazyG1 (partiesRestT p3TermB) [c] tl))

/-- Removal of `^(Petitioner[:\s]*|Plaintiff[:\s]*)` (IGNORECASE): the
greedy `[:\s]*` is maximal since nothing follows it in the pattern. -/
def stripPartyPre (l : List Char) : List Char :=
  if startsWithCI ("Petitioner".data) l then
    (l.drop 10).dropWhile (fun c => c = ':' || pyWs c)
  else if startsWithCI ("Plaintiff".data) l then
    (l.drop 9).dropWhile (fun c => c = ':' || pyWs c)
  else l

/-- Anchored match of `(Respondent[:\s]*|Defendant[:\s]*)$` (no MULTILINE:
`$` is the end of the string or just before one trailing newline);
returns the input remaining after the match. -/
def partySufAt (l : List Char) : Option (List Char) :=
  let go : List Char → Option (List Char) := fun lr =>
    greedyRun (fun c => c = ':' || pyWs c) 0 lr (fun r =>
      if r = [] || r = ['\n'] then some r else none)
  (if startsWithCI ("Respondent".data) l then go (l.drop 10) else none)
  <|> (if startsWithCI ("Defendant".data) l then go (l.drop 9) else none)

/-- `re.sub` of the pattern above with the empty string (at most one match
can exist, since everything after it is the `$` position). -/
def stripPartySuf : List Char → List Char
  | [] => []
  | l@(c :: tl) =>
    match partySufAt l with
    | some r => r
    | none => c :: stripPartySuf tl

/-- `_extract_parties_enhanced` (lines 347-375): first pattern that has a
search match wins; both groups are stripped, whitespace-collapsed, and
the petitioner/respondent prefix/suffix labels removed.  (The confidence
value computed there is not used for the metadata fields.) -/
def _extract_parties_enhanced (text : List Char) :
    Option (String × String) :=
  match searchL partiesP1At text <|> searchL partiesP2At text
      <|> searchL partiesP3At text with
  | none => none
  | some (g1, g2) =>
    let pet := stripPartyPre (wsCollapse (pyStripL g1))
    let resp := stripPartySuf (wsCollapse (pyStripL g2))
    some (String.mk pet, String.mk resp)

/-! ### Judge patterns (`self.patterns['judge']`, lines 77-81), matched
with `re.findall` under `re.IGNORECASE | re.MULTILINE`; each pattern has
one capturing group, so `findall` yields the group values. -/

/-- The class `[A-Za-z\s\.]`. -/
def nameClassChar (c : Char) : Bool := isLetterC c || pyWs c || c = '.'

/-- `findall` driver for matchers returning (group, rest after match). -/
def findallCapAux (matchAt : List Char → Option (List Char × List Char)) :
    Nat → List Char → List (List Char) → List (List Char)
  | 0, _, acc => acc.reverse
  | _ + 1, [], acc => acc.reverse
  | f + 1, l@(_ :: tl), acc =>
    match matchAt l with
    | some (g, rest) =>
      if rest.length < l.length then findallCapAux matchAt f rest (g :: acc)
      else findallCapAux matchAt f tl acc
    | none => findallCapAux matchAt f tl acc

def findallCap (matchAt : List Char → Option (List Char × List Char))
    (l : List Char) : List (List Char) :=
  findallCapAux matchAt (l.length + 1) l []

/-- Lazy capture over `[A-Za-z\s\.]+?` (at least one beyond the seed):
grow while the class admits the character, returning the capture and the
rest after the suffix matcher. -/
def capLoop (suf : List Char → Option (List Char)) :
    List Char → List Char → Option (List Char × List Char)
  | _, [] => none
  | acc, c :: tl =>
    if nameClassChar c then
      match suf tl with
      | some rest => some ((c :: acc).reverse, rest)
      | none => capLoop suf (c :: acc) tl
    else none

/-- Suffix `(?:\s*,?\s*(?:J\.?|Judge|District Judge|Magistrate|CJM))` of
judge pattern 1 (alternatives in written order). -/
def judgeSuf1 (r : List Char) : Option (List Char) :=
  greedyRun pyWs 0 r (fun r1 =>
    let after : List Char → Option (List Char) := fun r2 =>
      greedyRun pyWs 0 r2 (fun r3 =>
        (match r3 with
         | c :: r4 =>
           if eqCI c 'j' then
             (match r4 with
              | '.' :: r5 => some r5
              | _ => none)
             <|> some r4
           else none
         | [] => none)
        <|> eatCI ("Judge".data) r3 some
        <|> eatCI ("District Judge".data) r3 some
        <|> eatCI ("Magistrate".data) r3 some
        <|> eatCI ("CJM".data) r3 some)
    (match r1 with
     | ',' :: r2 => after r2
     | _ => none)
    <|> after r1)

/-- Suffix `(?:\s*,?\s*(?:District Judge|Magistrate|CJM|J\.?))` of judge
pattern 2. -/
def judgeSuf2 (r : List Char) : Option (List Char) :=
  greedyRun pyWs 0 r (fun r1 =>
    let after : List Char → Option (List Char) := fun r2 =>
      greedyRun pyWs 0 r2 (fun r3 =>
        eatCI ("District Judge".data) r3 some
        <|> eatCI ("Magistrate".data) r3 some
        <|> eatCI ("CJM".data) r3 some
        <|> (match r3 with
             | c :: r4 =>
               if eqCI c 'j' then
                 (match r4 with
                  | '.' :: r5 => some r5
                  | _ => none)
                 <|> some r4
               else none
             | [] => none))
    (match r1 with
     | ',' :: r2 => after r2
     | _ => none)
    <|> after r1)

/-- The capture `([A-Z][A-Za-z\s\.]+?)` (under IGNORECASE, `[A-Z]` is any
letter) followed by a suffix matcher. -/
def judgeCap (suf : List Char → Option (List Char)) (l : List Char) :
    Option (List Char × List Char) :=
  match l with
  | c :: tl => if isLetterC c then capLoop suf [c] tl else none
  | [] => none

/-- Anchored match of judge pattern 1. -/
def judgeP1At (l : List Char) : Option (List Char × List Char) :=
  let core : List Char → Option (List Char × List Char) := fun l1 =>
    eatCI ("Mr.".data) l1 (fun l2 => judgeCap judgeSuf1 l2)
    <|> eatCI ("Ms.".data) l1 (fun l2 => judgeCap judgeSuf1 l2)
    <|> eatCI ("Justice".data) l1
        (fun l2 => greedyRun pyWs 1 l2 (judgeCap judgeSuf1))
    <|> eatCI ("Judge".data) l1
        (fun l2 => greedyRun pyWs 1 l2 (judgeCap judgeSuf1))
    <|> eatCI ("Magistrate".data) l1
        (fun l2 => greedyRun pyWs 1 l2 (judgeCap judgeSuf1))
  (eatCI ("Hon\x27ble".data) l (fun l1 => greedyRun pyWs 1 l1 core))
    <|> core l

/-- Anchored match of judge pattern 2. -/
def judgeP2At (l : List Char) : Option (List Char × List Char) :=
  judgeCap judgeSuf2 l

/-- Terminator `(?:\n|Present:|Date:)` of judge pattern 3 (consuming). -/
def judgeP3Term (r : List Char) : Option (List Char) :=
  (match r with
   | '\n' :: rr => some rr
   | _ => none)
  <|> eatCI ("Present:".data) r some
  <|> eatCI ("Date:".data) r some

/-- Lazy capture `(.+?)` of judge pattern 3 until its terminator. -/
def judgeP3Loop : List Char → List Char → Option (List Char × List Char)
  | _, [] => none
  | acc, c :: tl =>
    match judgeP3Term tl with
    | some rest => some ((c :: acc).reverse, rest)
    | none => judgeP3Loop (c :: acc) tl

/-- Anchored match of `Coram[:\s]+(.+?)(?:\n|Present:|Date:)`. -/
def judgeP3At (l : List Char) : Option (List Char × List Char) :=
  eatCI ("Coram".data) l (fun l1 =>
    greedyRun (fun c => c = ':' || pyWs c) 1 l1 (judgeP3Loop []))

/-- Global removal `re.sub(r'(Hon\x27ble\s+|Mr\.|Ms\.|Justice\s+)', '')`
(IGNORECASE), scanning left to right. -/
def judgeSubCleanAux : Nat → List Char → List Char
  | 0, l => l
  | _ + 1, [] => []
  | f + 1, l@(c :: tl) =>
    match (eatCI ("Hon\x27ble".data) l (fun l1 => greedyRun pyWs 1 l1 some))
        <|> eatCI ("Mr.".data) l some
        <|> eatCI ("Ms.".data) l some
        <|> (eatCI ("Justice".data) l (fun l1 => greedyRun pyWs 1 l1 some)) with
    | some rest =>
      if rest.length < l.length then judgeSubCleanAux f rest
      else c :: judgeSubCleanAux f tl
    | none => c :: judgeSubCleanAux f tl

def judgeSubClean (l : List Char) : List Char :=
  judgeSubCleanAux (l.length + 1) l

/-- `_extract_judge_enhanced` (lines 432-465): collect all group values of
the three patterns, clean them, keep names longer than three characters;
the longest (first maximal) is the judge name and the number of distinct
cleaned names the bench strength. -/
def _extract_judge_enhanced (text : List Char) : Option (String × Nat) :=
  let found := findallCap judgeP1At text ++ findallCap judgeP2At text
    ++ findallCap judgeP3At text
  if found = [] then none
  else
    let cleaned := (found.map (fun j => pyStripL (wsCollapse (judgeSubClean j)))).filter
      (fun c => c.length > 3)
    match cleaned with
    | [] => none
    | h :: t =>
      let best := t.foldl (fun b x => if x.length > b.length then x else b) h
      some (String.mk best, cleaned.dedup.length)

/-! ### Counsel (`self.patterns['counsel']`, lines 82-86, and
`_extract_counsel_info`, lines 490-509) -/

/-- Anchored match of `Present[:\s]+(.*?)(?=\n\n|\nThis|\nHeard|\nCase)`
(IGNORECASE, DOTALL): returns the captured section. -/
def presentSectionAt (l : List Char) : Option (List Char) :=
  let look : List Char → Bool := fun r =>
    startsWithL ("\n\n".data) r || startsWithCI ("\nThis".data) r
      || startsWithCI ("\nHeard".data) r || startsWithCI ("\nCase".data) r
  let rec lazy0 : List Char → List Char → Option (List Char)
    | acc, r =>
      if look r then some acc.reverse
      else
        match r with
        | [] => none
        | c :: tl => lazy0 (c :: acc) tl
  eatCI ("Present".data) l (fun l1 =>
    greedyRun (fun c => c = ':' || pyWs c) 1 l1 (lazy0 []))

/-- Suffix `(?:,?\s*(?:Ld\.|Learned)?\s*(?:Counsel|Advocate))` of counsel
patterns 1 and 3. -/
def counselSuf (r : List Char) : Option (List Char) :=
  let afterComma : List Char → Option (List Char) := fun r1 =>
    greedyRun pyWs 0 r1 (fun r2 =>
      let afterLd : List Char → Option (List Char) := fun r3 =>
        greedyRun pyWs 0 r3 (fun r4 =>
          eatCI ("Counsel".data) r4 some <|> eatCI ("Advocate".data) r4 some)
      (eatCI ("Ld.".data) r2 afterLd) <|> (eatCI ("Learned".data) r2 afterLd)
        <|> afterLd r2)
  (match r with
   | ',' :: r1 => afterComma r1
   | _ => none)
  <|> afterComma r

/-- Anchored match of counsel pattern 1
`(?:Sh\.|Ms\.|Mr\.|Adv\.)\s+([A-Za-z\s\.]+?)(?:,?\s*(?:Ld\.|Learned)?\s*(?:Counsel|Advocate))`. -/
def counselP1At (l : List Char) : Option (List Char × List Char) :=
  altTokens (["Sh.", "Ms.", "Mr.", "Adv."].map String.data) l (fun l1 =>
    greedyRun pyWs 1 l1 (capLoop counselSuf []))

/-- Anchored match of counsel pattern 2
`(?:Learned\s+)?(?:Counsel|Advocate)[:\s]+(?:Sh\.|Ms\.|Mr\.)\s+([A-Za-z\s\.]+)`
(the final group is greedy, so it is the maximal class run). -/
def counselP2At (l : List Char) : Option (List Char × List Char) :=
  let fromKw : List Char → Option (List Char × List Char) := fun lk =>
    ((eatCI ("Counsel".data) lk some) <|> (eatCI ("Advocate".data) lk some)).bind
      (fun l2 =>
        greedyRun (fun c => c = ':' || pyWs c) 1 l2 (fun l3 =>
          altTokens (["Sh.", "Ms.", "Mr."].map String.data) l3 (fun l4 =>
            greedyRun pyWs 1 l4 (fun l5 =>
              let run := l5.takeWhile nameClassChar
              if run = [] then none else some (run, l5.drop run.length)))))
  (eatCI ("Learned".data) l (fun l1 => greedyRun pyWs 1 l1 fromKw))
    <|> fromKw l

/-- Anchored match of counsel pattern 3
`Present[:\s]+(?:Sh\.|Ms\.|Mr\.)\s+([A-Za-z\s\.]+?)(?:,?\s*(?:Ld\.|Learned)?\s*(?:Counsel|Advocate))`. -/
def counselP3At (l : List Char) : Option (List Char × List Char) :=
  eatCI ("Present".data) l (fun l1 =>
    greedyRun (fun c => c = ':' || pyWs c) 1 l1 (fun l2 =>
      altTokens (["Sh.", "Ms.", "Mr."].map String.data) l2 (fun l3 =>
        greedyRun pyWs 1 l3 (capLoop counselSuf []))))

/-- `_extract_counsel_info`: if a `Present` section is found, run the
counsel patterns over it, filling petitioner from the first match of the
first matching pattern and respondent from that same pattern's second
match on a later iteration (mirroring the if/elif of the source). -/
def _extract_counsel_info (text : List Char) : String × String :=
  match searchL presentSectionAt text with
  | none => ("", "")
  | some sec =>
    let step : (List Char × List Char) → List (List Char) →
        (List Char × List Char) := fun st ms =>
      if ms ≠ [] then
        if st.1 = [] then (pyStripL (ms.headD []), st.2)
        else if st.2 = [] && ms.length > 1 then
          (st.1, pyStripL ((ms.drop 1).headD []))
        else st
      else st
    let st := [findallCap counselP1At sec, findallCap counselP2At sec,
      findallCap counselP3At sec].foldl step ([], [])
    (String.mk st.1, String.mk st.2)

/-! ### Court identification (`self.court_patterns`, lines 90-119, and
`_identify_court_type`, lines 467-488) -/

inductive CourtType where
  | district
  | high
  | supreme
  | tribunal
  | magistrate
deriving DecidableEq, Repr

/-- Words joined by `\s+` (IGNORECASE). -/
def wordSeqAt : List (List Char) → List Char → Option (List Char)
  | [], l => some l
  | [w], l => eatCI w l some
  | w :: ws, l => eatCI w l (fun l1 => greedyRun pyWs 1 l1 (wordSeqAt ws))

/-- `District\s+(?:and\s+Sessions\s+)?Court`. -/
def districtCourtAt (l : List Char) : Option (List Char) :=
  eatCI ("District".data) l (fun l1 =>
    greedyRun pyWs 1 l1 (fun l2 =>
      (eatCI ("and".data) l2 (fun l3 =>
        greedyRun pyWs 1 l3 (fun l4 =>
          eatCI ("Sessions".data) l4 (fun l5 =>
            greedyRun pyWs 1 l5 (fun l6 => eatCI ("Court".data) l6 some)))))
      <|> eatCI ("Court".data) l2 some))

/-- The ordered court-pattern table (dict insertion order of the source:
district, magistrate, high, supreme, tribunal). -/
def courtPatternTable :
    List (CourtType × List (List Char → Option (List Char))) :=
  [(.district,
    [districtCourtAt,
     wordSeqAt (["District", "Judge"].map String.data),
     wordSeqAt (["Additional", "District", "Judge"].map String.data),
     wordSeqAt (["Commercial", "Court"].map String.data)]),
   (.magistrate,
    [wordSeqAt (["Chief", "Judicial", "Magistrate"].map String.data),
     wordSeqAt (["Judicial", "Magistrate"].map String.data),
     wordSeqAt (["Metropolitan", "Magistrate"].map String.data),
     fun l => eatCI ("CJM".data) l some,
     fun l => eatCI ("ACJM".data) l some]),
   (.high,
    [wordSeqAt (["High", "Court"].map String.data),
     fun l => eatCI ("Hon\x27ble".data) l (fun l1 =>
       greedyRun pyWs 1 l1 (wordSeqAt (["High", "Court"].map String.data)))]),
   (.supreme,
    [wordSeqAt (["Supreme", "Court"].map String.data),
     fun l => eatCI ("Hon\x27ble".data) l (fun l1 =>
       greedyRun pyWs 1 l1 (wordSeqAt (["Supreme", "Court"].map String.data)))]),
   (.tribunal,
    [fun l => eatCI ("Tribunal".data) l some,
     fun l => eatCI ("NCLT".data) l some,
     fun l => eatCI ("NCLAT".data) l some,
     fun l => eatCI ("AFT".data) l some,
     fun l => eatCI ("CAT".data) l some])]

/-- Maximal segment of characters other than `.` and newline around
position `i`.  For the newline-free text produced by `_clean_text`, this
is the group of `re.search(r'([^.\n]*PAT[^.\n]*)')` around the first
occurrence of a court pattern, since those patterns can match neither a
dot nor (in such text) a newline. -/
def segName (text : List Char) (i : Nat) : List Char :=
  let keep : Char → Bool := fun c => c ≠ '.' && c ≠ '\n'
  ((text.take i).reverse.takeWhile keep).reverse
    ++ (text.drop i).takeWhile keep

/-- `_identify_court_type`: first pattern (in table order) with a match
wins; its name is the stripped surrounding segment.  With no match the
fallback is a district court named `District Court`. -/
def _identify_court_type (text : List Char) : CourtType × String :=
  let rec goPats : List (List Char → Option (List Char)) → Option Nat
    | [] => none
    | p :: ps =>
      match searchIdx p text with
      | some i => some i
      | none => goPats ps
  let rec goTable : List (CourtType × List (List Char → Option (List Char)))
      → CourtType × String
    | [] => (.district, "District Court")
    | (ct, ps) :: rest =>
      match goPats ps with
      | some i => (ct, String.mk (pyStripL (segName text i)))
      | none => goTable rest
  goTable courtPatternTable

/-! ### Case type and subject matter (lines 511-558) -/

/-- The `case_types` table in dict insertion order. -/
def caseTypeTable : List (String × String) :=
  [("OMP", "Original Main Petition"), ("CRL", "Criminal"),
   ("CS", "Civil Suit"), ("CC", "Civil Case"), ("SA", "Second Appeal"),
   ("FAO", "First Appeal from Order"), ("CRP", "Civil Revision Petition"),
   ("MAC", "Motor Accident Claims"), ("RFA", "Regular First Appeal"),
   ("WP", "Writ Petition"), ("CP", "Civil Petition"),
   ("BAIL", "Bail Application")]

/-- `_determine_case_type`: `Unknown` without a case number; otherwise the
first table entry whose key occurs in the upper-cased case number, with
fallback `Civil`. -/
def _determine_case_type (case_number : String) : String :=
  if case_number = "" then "Unknown"
  else
    match caseTypeTable.find?
        (fun p => containsL p.1.data (upperL case_number.data)) with
    | some p => p.2
    | none => "Civil"

/-- The `subjects` table (dict order) with the rendered
`subject.replace('_',' ').title()` values precomputed.  The keyword
`138 NI act` contains upper-case letters and is compared against the
lower-cased text, so it can never fire; it is kept verbatim. -/
def subjectTable : List (String × List String) :=
  [("Arbitration", ["arbitration", "arbitrator", "arbitral"]),
   ("Motor Accident", ["motor accident", "vehicle accident", "mac"]),
   ("Property", ["property", "land", "immovable"]),
   ("Contract", ["contract", "agreement", "breach"]),
   ("Criminal", ["criminal", "offence", "crime"]),
   ("Matrimonial", ["divorce", "marriage", "matrimonial"]),
   ("Service", ["service matter", "employment", "termination"]),
   ("Cheque Bounce", ["cheque", "dishonour", "138 NI act"]),
   ("Bail", ["bail", "anticipatory bail"]),
   ("Loan", ["loan", "finance", "repayment", "installment"])]

/-- `_extract_subject_matter`: first subject (in table order) one of whose
keywords occurs in the lower-cased text, with fallback `General`. -/
def _extract_subject_matter (text : List Char) : String :=
  let tl := lowerL text
  match subjectTable.find? (fun p => p.2.any (fun k => containsL k.data tl)) with
  | some p => p.1
  | none => "General"

/-! ### `_extract_with_confidence` (lines 305-345)

Scores are modelled over `ℚ`; Python computes them in binary floating
point, whose rounding can differ from exact arithmetic only in
borderline comparisons (none of the developments below depend on a score
value: on every input they evaluate, the match list is empty or a
singleton). -/

/-- Existence of a match of `\d+/\d{4}` in `l`. -/
def hasSlashYear4 : List Char → Bool
  | [] => false
  | l@(_ :: tl) =>
    (let run := l.takeWhile isDigitC
     run ≠ [] &&
       (match l.drop run.length with
        | '/' :: r => (r.takeWhile isDigitC).length ≥ 4
        | _ => false))
    || hasSlashYear4 tl

/-- Leftmost index of `pat` in `l` (`str.find`). -/
def findIdxL (pat : List Char) (l : List Char) : Option Nat :=
  searchIdx (fun r => if startsWithL pat r then some () else none) l

/-- The score of one (already stripped) match. -/
def scoreOf (text : List Char) (ms : List (List Char)) (isCase : Bool)
    (m : List Char) : ℚ :=
  let pos : ℚ := match findIdxL m text with
    | some i => (i : ℚ)
    | none => -1
  let n : ℚ := (text.length : ℚ)
  let posScore : ℚ :=
    if pos < n / 10 then 4 / 10 else if pos < 3 * n / 10 then 2 / 10 else 0
  let freqScore : ℚ := min ((ms.count m : ℚ) / 10) (3 / 10)
  let fmtScore : ℚ :=
    if isCase then
      (if hasSlashYear4 m then 3 / 10 else 0)
        + (if ["OMP", "CRL", "CS", "CC", "SA"].any
              (fun t => containsL t.data (upperL m)) then 2 / 10 else 0)
    else 0
  posScore + freqScore + fmtScore

/-- `_extract_with_confidence` on an already collected match list: strip
each match, score, return the first maximal one with its capped score. -/
def _extract_with_confidence (text : List Char) (found : List (List Char))
    (isCase : Bool) : String × ℚ :=
  let ms := found.map pyStripL
  match ms with
  | [] => ("", 0)
  | h :: t =>
    let best := t.foldl
      (fun b x => if scoreOf text ms isCase x > scoreOf text ms isCase b
        then x else b) h
    (String.mk best, min (scoreOf text ms isCase best) 1)

/-- Anchored match of `/(\d{2,4})$` (no flags: `$` is the end of the
string or just before one trailing newline); returns group 1. -/
def yearSufAt (l : List Char) : Option (List Char) :=
  match l with
  | '/' :: l1 =>
    tryDesc 2 (fun n =>
      if n ≤ (l1.takeWhile isDigitC).length then
        (let rest := l1.drop n
         if rest = [] || rest = ['\n'] then some (l1.take n) else none)
      else none) 4
  | _ => none

/-- The case-year derivation from the case number (lines 243-247). -/
def caseYearOf (cn : List Char) : String :=
  match searchL yearSufAt cn with
  | some y => if y.length = 2 then String.mk ('2' :: '0' :: y) else String.mk y
  | none => ""

/-! ### `smart_parse_judgment_structure` (lines 226-290) -/

structure JudgmentMetadata where
  case_number : String := ""
  case_year : String := ""
  parties_petitioner : String := ""
  parties_respondent : String := ""
  date_of_judgment : String := ""
  date_of_filing : String := ""
  judge_name : String := ""
  court_name : String := ""
  court_type : CourtType := .district
  case_type : String := ""
  subject_matter : String := ""
  bench_strength : Nat := 1
  counsel_petitioner : String := ""
  counsel_respondent : String := ""
deriving DecidableEq, Repr

/-- `smart_parse_judgment_structure`: clean the text, then run every field
extractor on the cleaned text.  Each `if result:` guard of the source
leaves the dataclass default in place exactly when the extractor comes
back empty, which the `match`es below reproduce.  The aggregate
`confidence_score` is instance state, not part of the metadata record,
and is not modelled. -/
def smart_parse_judgment_structure (text : String) : JudgmentMetadata :=
  let cleaned := (_clean_text text).data
  let cn := (_extract_with_confidence cleaned (caseNumberMatches cleaned) true).1
  let parties := _extract_parties_enhanced cleaned
  let dates := _extract_dates_multiple cleaned
  let judge := _extract_judge_enhanced cleaned
  let court := _identify_court_type cleaned
  let counsel := _extract_counsel_info cleaned
  { case_number := cn
    case_year := if cn ≠ "" then caseYearOf cn.data else ""
    parties_petitioner := match parties with
      | some p => p.1
      | none => ""
    parties_respondent := match parties with
      | some p => p.2
      | none => ""
    date_of_judgment := match dates with
      | some d => d.1
      | none => ""
    date_of_filing := match dates with
      | some d => d.2
      | none => ""
    judge_name := match judge with
      | some j => j.1
      | none => ""
    bench_strength := match judge with
      | some j => j.2
      | none => 1
    court_type := court.1
    court_name := court.2
    case_type := _determine_case_type cn
    subject_matter := _extract_subject_matter cleaned
    counsel_petitioner := counsel.1
    counsel_respondent := counsel.2 }

/-! ### Concrete documents used by the claims -/

/-- The sample judgment of the specification's end-to-end scenario. -/
def sampleJudgmentLines : List String :=
  ["OMP (I) Comm. No. 800/20",
   "HDB FINANCIAL SERVICES LTD VS THE DEOBAND PUBLIC SCHOOL",
   "13.02.2020",
   "Present : Sh. Ashok Kumar Ld. Counsel for petitioner.",
   "This is a petition u/s 9 of Indian Arbitration and",
   "Conciliation Act 1996 for appointment of receiver.",
   "(i) The receiver shall take over the possession",
   "of the vehicle from the respondent.",
   "VINAY KUMAR KHANNA",
   "District Judge"]

def sampleJudgmentText : String := String.intercalate "\n" sampleJudgmentLines

/-- A single line longer than fifty characters with a date inside it. -/
def longLineWithDate : String :=
  "The loan agreement was executed between the parties on 13.02.2020 and remains in force thereafter."

/-- A single long line containing two dates inside running prose. -/
def longLineTwoDates : String :=
  "The first installment fell due on 01.01.2019 and the final award was pronounced on 13.02.2020 in open court."

/-! ### Helper lemmas about the classifier -/

lemma classifyStripped_ne_empty (l : List Char) :
    classifyStripped l ≠ LineTag.empty := by
  intro h
  unfold classifyStripped at h
  by_cases h1 : isPageLine l <;> simp [h1] at h
  by_cases h2 : isVsLine l <;> simp [h2] at h
  by_cases h3 : matchRomanDot l <;> simp [h3] at h
  by_cases h4 : matchParenNum l <;> simp [h4] at h
  by_cases h5 : matchNumDot l <;> simp [h5] at h
  by_cases h6 : matchParenLetter l <;> simp [h6] at h
  by_cases h7 : matchParenRomanLower l <;> simp [h7] at h
  by_cases h8 : matchCapDot l <;> simp [h8] at h
  by_cases h9 : matchNumParen l <;> simp [h9] at h
  by_cases h10 : matchBullet l <;> simp [h10] at h
  by_cases h11 : matchDash l <;> simp [h11] at h
  by_cases h12 : isLegalPhraseLine l <;> simp [h12] at h
  by_cases h13 : isAllCapsLine l <;> simp [h13] at h

/-- A line is tagged `empty` exactly when its stripped text is blank. -/
lemma classify_empty_iff (raw : String) :
    classify raw = LineTag.empty ↔ pyStripL raw.data = [] := by
  unfold classify
  split_ifs with h
  · simp [h]
  · simpa [h] using classifyStripped_ne_empty (pyStripL raw.data)

/-- The disjunction of all non-default rules of the per-line dispatch of
`preserve_enhanced_numbering` (for a non-blank stripped line). -/
def matchedByRule (l : List Char) : Bool :=
  isPageLine l || isVsLine l || matchRomanDot l || matchParenNum l
    || matchNumDot l || matchParenLetter l || matchParenRomanLower l
    || matchCapDot l || matchNumParen l || matchBullet l || matchDash l
    || isLegalPhraseLine l || isAllCapsLine l

/-! ### Claim theorems -/

/-- C1: the block output of `preserve_enhanced_numbering` is lossless with
respect to line membership — concatenating the source lines of all output
blocks, in output order, yields exactly the non-`empty`-tagged
subsequence of the input lines; no line is dropped, duplicated, or
reordered.  (In this code every non-blank line yields exactly one block,
so each block has exactly one source line.) -/
theorem c1_reconstruction_lossless (L : List String) :
    (lineBlocks L).map Block.source
      = L.filter (fun raw => classify raw != LineTag.empty) := by
  induction L with
  | nil => rfl
  | cons h t ih =>
    by_cases hc : pyStripL h.data = []
    · have hce : classify h = LineTag.empty := (classify_empty_iff h).mpr hc
      simp only [lineBlocks, List.filterMap_cons, List.filter_cons, lineBlock?,
        if_pos hc, hce, bne_self_eq_false, Bool.false_eq_true, if_false]
      exact ih
    · have hne : classify h ≠ LineTag.empty :=
        fun he => hc ((classify_empty_iff h).mp he)
      have hb : (classify h != LineTag.empty) = true := by simpa using hne
      simp only [lineBlocks, List.filterMap_cons, List.filter_cons, lineBlock?,
        if_neg hc, hb, if_true, List.map_cons]
      simp only [lineBlocks] at ih
      simp [ih]

/-- C2 counterexample: on the lines `inter-` and `national law` the code
produces two separate paragraph blocks; no block contains the merged text
`international law`, so the claimed hyphen-joining does not happen. -/
theorem c2_hyphen_join_counterexample :
    lineBlocks ["inter-", "national law"] =
      [⟨LineTag.paragraph, "inter-", "inter-"⟩,
       ⟨LineTag.paragraph, "national law", "national law"⟩] ∧
    ∀ b ∈ lineBlocks ["inter-", "national law"],
      b.content ≠ "international law" := by decide

/-- C2 amended: reconstruction never joins lines — `inter-` and
`national law` stay two separate paragraph blocks, the trailing hyphen is
kept, and the emitted html wraps each line in its own paragraph div. -/
theorem c2_hyphen_kept_separate_blocks :
    (lineBlocks ["inter-", "national law"]).map Block.content
        = ["inter-", "national law"] ∧
    (lineBlocks ["inter-", "national law"]).map Block.tag
        = [LineTag.paragraph, LineTag.paragraph] ∧
    preserve_enhanced_numbering "inter-\nnational law" =
      "<div class=\"paragraph\">inter-</div>\n<div class=\"paragraph\">national law</div>" := by
  decide

/-- C3: line classification is a total function into the closed `LineTag`
vocabulary (`classify` is a Lean function, so totality and the absence of
exceptions are structural), and a non-blank line matched by none of the
rules receives the default tag `paragraph` — and only such lines do. -/
theorem c3_classification_total_default (s : String) :
    classify s = LineTag.paragraph ↔
      pyStripL s.data ≠ [] ∧ matchedByRule (pyStripL s.data) = false := by
  unfold classify matchedByRule
  split_ifs with h
  · simp [h]
  · set l := pyStripL s.data with hl
    unfold classifyStripped
    simp only [h, ne_eq, not_false_iff, true_and]
    by_cases h1 : isPageLine l <;> simp [h1]
    by_cases h2 : isVsLine l <;> simp [h2]
    by_cases h3 : matchRomanDot l <;> simp [h3]
    by_cases h4 : matchParenNum l <;> simp [h4]
    by_cases h5 : matchNumDot l <;> simp [h5]
    by_cases h6 : matchParenLetter l <;> simp [h6]
    by_cases h7 : matchParenRomanLower l <;> simp [h7]
    by_cases h8 : matchCapDot l <;> simp [h8]
    by_cases h9 : matchNumParen l <;> simp [h9]
    by_cases h10 : matchBullet l <;> simp [h10]
    by_cases h11 : matchDash l <;> simp [h11]
    by_cases h12 : isLegalPhraseLine l <;> simp [h12]

/-- C4 counterexample: on an empty input the metadata record is not
all-default — `case_type`, `court_name` and `subject_matter` come back as
non-empty fallback constants instead of the default empty string. -/
theorem c4_empty_input_counterexample :
    (smart_parse_judgment_structure "").case_type ≠ "" ∧
    (smart_parse_judgment_structure "").court_name ≠ "" ∧
    (smart_parse_judgment_structure "").subject_matter ≠ "" := by decide

/-- C4 amended: an empty input raises no error and produces an empty block
sequence, but the metadata is the default record only up to the three
fallback fields: `court_name = "District Court"`, `case_type = "Unknown"`
and `subject_matter = "General"` (every other field is its default). -/
theorem c4_empty_input_behaviour :
    preserve_enhanced_numbering "" = "" ∧
    blocksOfText "" = [] ∧
    lineBlocks [] = [] ∧
    smart_parse_judgment_structure "" =
      { court_name := "District Court", case_type := "Unknown",
        subject_matter := "General" } := by
  refine ⟨rfl, rfl, rfl, ?_⟩
  decide

/-- C5 counterexample: on `hello world` no court pattern matches and no
case number is found, yet `court_name`, `case_type` and `subject_matter`
are the non-empty fallbacks `District Court`, `Unknown` and `General`. -/
theorem c5_fallback_counterexample :
    (∀ e ∈ courtPatternTable, ∀ p ∈ e.2,
      searchIdx p (_clean_text "hello world").data = none) ∧
    caseNumberMatches (_clean_text "hello world").data = [] ∧
    (smart_parse_judgment_structure "hello world").court_name = "District Court" ∧
    (smart_parse_judgment_structure "hello world").case_type = "Unknown" ∧
    (smart_parse_judgment_structure "hello world").subject_matter = "General" := by
  decide

/-- C5 amended: extraction never raises (the extractors are total
functions) and the pattern-based fields do default to the empty string,
but `court_name`, `case_type` and `subject_matter` fall back to the
constants `District Court`, `Unknown` and `General` when nothing is
found, as the full record on `hello world` shows. -/
theorem c5_fallback_values :
    smart_parse_judgment_structure "hello world" =
      { court_name := "District Court", case_type := "Unknown",
        subject_matter := "General" } := by decide

set_option maxHeartbeats 16000000 in
/-- C6: on the end-to-end sample document the extractor returns an empty
`case_number` (not `OMP (I) Comm. No. 800/20`) and party fields that no
longer even contain the token `HDB`, because `_clean_text` inserts spaces
inside every all-caps token before the patterns run; only the date comes
back as the claim expects. -/
theorem c6_sample_extraction_eval :
    (smart_parse_judgment_structure sampleJudgmentText).case_number = "" ∧
    (smart_parse_judgment_structure sampleJudgmentText).date_of_judgment
        = "13.02.2020" ∧
    containsL ("HDB".data)
      (smart_parse_judgment_structure sampleJudgmentText).parties_petitioner.data
        = false ∧
    containsL ("HDB".data)
      (smart_parse_judgment_structure sampleJudgmentText).parties_respondent.data
        = false := by
  refine ⟨?_, ?_, ?_, ?_⟩ <;> decide

/-- Helper for C7: the lettered-points rule is checked before the
parenthesized-roman rule, so any line it matches can never be tagged
`subPoints`. -/
lemma lettered_before_sub_points (l : List Char)
    (hm : matchParenLetter l = true) :
    classifyStripped l ≠ LineTag.subPoints := by
  intro h
  unfold classifyStripped at h
  by_cases h1 : isPageLine l <;> simp [h1] at h
  by_cases h2 : isVsLine l <;> simp [h2] at h
  by_cases h3 : matchRomanDot l <;> simp [h3] at h
  by_cases h4 : matchParenNum l <;> simp [h4] at h
  by_cases h5 : matchNumDot l <;> simp [h5] at h
  simp [hm] at h

/-- C7 counterexample: `(i) First point` starts with a parenthesized
roman numeral but is tagged `letteredPoints` (css `lettered-points`), not
`subPoints` (css `sub-points`): the single-lowercase-letter rule wins. -/
theorem c7_roman_paren_counterexample :
    classify "(i) First point" = LineTag.letteredPoints ∧
    LineTag.letteredPoints ≠ LineTag.subPoints := by decide

/-- C7 amended: in the fixed rule order the lettered-points rule precedes
the parenthesized-roman rule, so a parenthesized single lower-case letter
— including the one-letter roman numerals `(i)`, `(v)`, `(x)`, `(l)`,
`(c)` — is tagged `letteredPoints`; only multi-letter parenthesized
romans such as `(iv)` reach the `subPoints` rule. -/
theorem c7_lettered_rule_precedes :
    (∀ l : List Char, matchParenLetter l = true →
      classifyStripped l ≠ LineTag.subPoints) ∧
    classify "(i) The receiver shall take over" = LineTag.letteredPoints ∧
    classify "(v) cost order" = LineTag.letteredPoints ∧
    classify "(x) misc item" = LineTag.letteredPoints ∧
    classify "(l) list item" = LineTag.letteredPoints ∧
    classify "(c) clause" = LineTag.letteredPoints ∧
    classify "(iv) Second point" = LineTag.subPoints ∧
    classify "(ii) Third point" = LineTag.subPoints ∧
    classify "(ix) Fourth point" = LineTag.subPoints := by
  refine ⟨lettered_before_sub_points, ?_, ?_, ?_, ?_, ?_, ?_, ?_, ?_⟩ <;> decide

/-- Witness for C7: the general priority statement applied to the concrete
line `(i) First point`. -/
theorem c7_lettered_rule_precedes_witness :
    classifyStripped ("(i) First point".data) ≠ LineTag.subPoints :=
  c7_lettered_rule_precedes.1 ("(i) First point".data) (by decide)

/-- C8 counterexample: `STATE V. JOHN DOE` contains the claimed
separator token ` V. ` and is short, yet the code tags it
`allCapsHeading`, not a parties/case-header line — the `V.` separator is
not recognized at all. -/
theorem c8_parties_counterexample :
    containsL (" V. ".data) (upperL ("STATE V. JOHN DOE".data)) = true ∧
    ("STATE V. JOHN DOE".data).length < 200 ∧
    classify "STATE V. JOHN DOE" = LineTag.allCapsHeading ∧
    LineTag.allCapsHeading ≠ LineTag.caseHeader := by decide

/-- Helper for C8: below the page-marker rule, the case-header tag is
produced exactly by the `isVsLine` test. -/
lemma case_header_iff_vs (l : List Char) (hpg : isPageLine l = false) :
    classifyStripped l = LineTag.caseHeader ↔ isVsLine l = true := by
  unfold classifyStripped
  simp only [hpg, Bool.false_eq_true, if_false]
  by_cases h2 : isVsLine l <;> simp [h2]
  by_cases h3 : matchRomanDot l <;> simp [h3]
  by_cases h4 : matchParenNum l <;> simp [h4]
  by_cases h5 : matchNumDot l <;> simp [h5]
  by_cases h6 : matchParenLetter l <;> simp [h6]
  by_cases h7 : matchParenRomanLower l <;> simp [h7]
  by_cases h8 : matchCapDot l <;> simp [h8]
  by_cases h9 : matchNumParen l <;> simp [h9]
  by_cases h10 : matchBullet l <;> simp [h10]
  by_cases h11 : matchDash l <;> simp [h11]
  by_cases h12 : isLegalPhraseLine l <;> simp [h12]
  by_cases h13 : isAllCapsLine l <;> simp [h13]

/-- C8 amended: a stripped line that is not a page marker is tagged
case-header exactly when its upper-cased text contains one of the
substrings `VS`, `V/S`, `VERSUS` anywhere (no space delimiting, and no
` V. ` alternative) and the line is shorter than 200 characters (a
character bound, not a twenty-word bound). -/
theorem c8_case_header_iff (l : List Char) (hpg : isPageLine l = false) :
    classifyStripped l = LineTag.caseHeader ↔
      ((containsL ("VS".data) (upperL l) || containsL ("V/S".data) (upperL l)
        || containsL ("VERSUS".data) (upperL l)) = true ∧ l.length < 200) := by
  rw [case_header_iff_vs l hpg]
  simp [isVsLine]

/-- Witness for C8: the characterization applied to the concrete line
`A VS B`. -/
theorem c8_case_header_iff_witness :
    isPageLine ("A VS B".data) = false ∧
    (classifyStripped ("A VS B".data) = LineTag.caseHeader ↔
      ((containsL ("VS".data) (upperL ("A VS B".data))
        || containsL ("V/S".data) (upperL ("A VS B".data))
        || containsL ("VERSUS".data) (upperL ("A VS B".data))) = true ∧
        ("A VS B".data).length < 200)) :=
  ⟨by decide, c8_case_header_iff ("A VS B".data) (by decide)⟩

/-- C9 counterexample: a date embedded in a single line of more than
fifty characters is still extracted as the judgment date — no
length-based rejection happens. -/
theorem c9_long_line_date_counterexample :
    50 < longLineWithDate.length ∧
    (∀ c ∈ longLineWithDate.data, c ≠ '\n') ∧
    (smart_parse_judgment_structure longLineWithDate).date_of_judgment
      = "13.02.2020" := by decide

/-- C9 amended: date candidates are collected from the whole cleaned text
(whose line structure `_clean_text` has already destroyed) with no
length filter; among all matches, the one with the latest parsed
calendar date becomes the judgment date and the earliest the filing
date, even inside a long sentence. -/
theorem c9_no_length_filter :
    50 < longLineTwoDates.length ∧
    (smart_parse_judgment_structure longLineTwoDates).date_of_judgment
        = "13.02.2020" ∧
    (smart_parse_judgment_structure longLineTwoDates).date_of_filing
        = "01.01.2019" := by decide

/-! ### Helper lemmas for C10 -/

/-- Some adjacent pair of `l` is a word character followed by an
upper-case letter (the caps-splitting pattern fires somewhere). -/
def hasCapsPair : List Char → Bool
  | c1 :: c2 :: rest => (isWordChar c1 && isUpperAZ c2) || hasCapsPair (c2 :: rest)
  | _ => false

lemma capsSub_length_ge (l : List Char) : l.length ≤ (capsSub l).length := by
  induction l using capsSub.induct with
  | case1 => simp [capsSub]
  | case2 c => simp [capsSub]
  | case3 c1 c2 rest h ih =>
    simp only [capsSub, if_pos h, List.length_cons]
    omega
  | case4 c1 c2 rest h ih =>
    simp only [capsSub, if_neg h, List.length_cons]
    simp only [List.length_cons] at ih
    omega

lemma capsSub_length_gt (l : List Char) (hp : hasCapsPair l = true) :
    l.length < (capsSub l).length := by
  induction l using capsSub.induct with
  | case1 => simp [hasCapsPair] at hp
  | case2 c => simp [hasCapsPair] at hp
  | case3 c1 c2 rest h ih =>
    have := capsSub_length_ge rest
    simp only [capsSub, if_pos h, List.length_cons]
    omega
  | case4 c1 c2 rest h ih =>
    have hp2 : hasCapsPair (c2 :: rest) = true := by
      simp only [hasCapsPair, Bool.or_eq_true] at hp
      rcases hp with hpa | hpb
      · exact absurd hpa (by simpa using h)
      · exact hpb
    have := ih hp2
    simp only [capsSub, if_neg h, List.length_cons]
    simp only [List.length_cons] at this
    omega

lemma isWordChar_of_upper (c : Char) (h : isUpperAZ c = true) :
    isWordChar c = true := by
  simp [isWordChar, isLetterC, h]

lemma hasCapsPair_cons (c : Char) (tl : List Char)
    (h : hasCapsPair tl = true) : hasCapsPair (c :: tl) = true := by
  cases tl with
  | nil => simp [hasCapsPair] at h
  | cons x xs => simp [hasCapsPair, h]

lemma hasCapsPair_append (pre post : List Char) (c1 c2 : Char)
    (h1 : isUpperAZ c1 = true) (h2 : isUpperAZ c2 = true) :
    hasCapsPair (pre ++ c1 :: c2 :: post) = true := by
  induction pre with
  | nil => simp [hasCapsPair, isWordChar_of_upper c1 h1, h2]
  | cons p ps ih => exact hasCapsPair_cons p _ ih

/-- C10: `_clean_text`'s caps-splitting substitution turns `HDB` into
`H DB`; whenever the text contains two adjacent capital letters anywhere
(in particular inside any run of two or more capitals) the substitution
changes the text; and the cleaned sample document that the metadata
matchers scan no longer contains the original all-caps tokens `HDB`,
`FINANCIAL`, `VS` or `VINAY` verbatim. -/
theorem c10_caps_split :
    _clean_text "HDB" = "H DB" ∧
    (∀ (pre post : List Char) (c1 c2 : Char),
      isUpperAZ c1 = true → isUpperAZ c2 = true →
      capsSub (pre ++ c1 :: c2 :: post) ≠ pre ++ c1 :: c2 :: post) ∧
    containsL ("HDB".data) (_clean_text sampleJudgmentText).data = false ∧
    containsL ("FINANCIAL".data) (_clean_text sampleJudgmentText).data = false ∧
    containsL ("VS".data) (_clean_text sampleJudgmentText).data = false ∧
    containsL ("VINAY".data) (_clean_text sampleJudgmentText).data = false := by
  refine ⟨by decide, ?_, by decide, by decide, by decide, by decide⟩
  intro pre post c1 c2 h1 h2 he
  have hlt := capsSub_length_gt (pre ++ c1 :: c2 :: post)
    (hasCapsPair_append pre post c1 c2 h1 h2)
  rw [he] at hlt
  omega

/-- Witness for C10: the quantified part applied to the concrete token
`HDB` (`pre = []`, the pair `H`,`D`, `post = "B"`). -/
theorem c10_caps_split_witness :
    capsSub ([] ++ 'H' :: 'D' :: ("B".data)) ≠ [] ++ 'H' :: 'D' :: ("B".data) :=
  c10_caps_split.2.1 [] ("B".data) 'H' 'D' (by decide) (by decide)

end LegalParser
